import Mathlib

/-!
Verification model of the APS M2000 power-analyzer client scripts.

Shallow embedding of the protocol-relevant logic of `m2000_lan.py`,
`m2000_rs232.py`, `m2000_usb.py` and `m2000_units.py`.

Modelling conventions:
* Python `float` values are modelled as exact rationals (`ℚ`); the decimal
  literals appearing in the source and in the claims are read as exact
  rationals.  Python's fixed-point string formatting (`%.Nf`) rounds
  half-to-even, which is modelled by `roundHalfEven` on the rational value.
  For every input evaluated in this development the rational result agrees
  with the IEEE-double result of CPython.
* Python `None` is modelled with `Option`, raised exceptions with
  `Except String` or explicit `raised` flags in result structures.
* Python dictionaries are modelled as insertion-ordered association lists
  (`List (String × _)`) with CPython ≥ 3.7 semantics: inserting an existing
  key overwrites the value in place, a new key is appended.
* The byte transports (TCP socket, serial port, HID device) are modelled by
  oracles: a reply function `String → Option String` for query round trips,
  event lists for byte-level reads, and success flags for writes.
-/

namespace M2000

/-- Value of a list of decimal digit characters, most significant first. -/
def digitsToNat (ds : List Char) : Nat :=
  ds.foldl (fun n c => 10 * n + (c.toNat - 48)) 0

/-- Parse a nonempty all-digit character list, as used by Python `int`. -/
def digitList? (ds : List Char) : Option Nat :=
  if ds ≠ [] ∧ ds.all Char.isDigit then some (digitsToNat ds) else none

/-- Strip ASCII whitespace from both ends of a character list. -/
def stripWs (cs : List Char) : List Char :=
  ((cs.dropWhile Char.isWhitespace).reverse.dropWhile Char.isWhitespace).reverse

/-- Model of Python `int(s)` for decimal strings: surrounding whitespace is
ignored, an optional sign precedes a nonempty digit string.  (Underscore
digit grouping and non-ASCII digits are outside this model.) -/
def pyIntParse (s : String) : Option ℤ :=
  match stripWs s.toList with
  | '+' :: ds => (digitList? ds).map (fun n => (n : ℤ))
  | '-' :: ds => (digitList? ds).map (fun n => -(n : ℤ))
  | ds => (digitList? ds).map (fun n => (n : ℤ))

/-!
Kernel-reducible rational arithmetic.

Mathlib's `Rat` field operations (`Rat.add`, division, `OfScientific`) do
not reduce inside the kernel, so every arithmetic step of the embedding is
expressed through `mkRat`, which does.  Each operation below computes the
standard `ℚ` operation (see the `q*_eq` bridge lemmas), so the embedding is
ordinary exact rational arithmetic. -/

/-- Rational addition, computed by cross multiplication through `mkRat`. -/
def qAdd (a b : ℚ) : ℚ :=
  mkRat (a.num * (b.den : ℤ) + b.num * (a.den : ℤ)) (a.den * b.den)

/-- Rational negation through `mkRat`. -/
def qNeg (a : ℚ) : ℚ := mkRat (-a.num) a.den

/-- Rational subtraction through `mkRat`. -/
def qSub (a b : ℚ) : ℚ := qAdd a (qNeg b)

/-- Rational multiplication through `mkRat`. -/
def qMul (a b : ℚ) : ℚ := mkRat (a.num * b.num) (a.den * b.den)

/-- Rational reciprocal through `mkRat` (`0⁻¹ = 0`, as in `ℚ`). -/
def qInv (a : ℚ) : ℚ :=
  if a.num < 0 then mkRat (-(a.den : ℤ)) a.num.natAbs
  else mkRat (a.den : ℤ) a.num.natAbs

/-- Rational division through `mkRat`. -/
def qDiv (a b : ℚ) : ℚ := qMul a (qInv b)

/-- The rational `10 ^ n` for a natural exponent. -/
def pow10 (n : Nat) : ℚ := mkRat ((10 ^ n : ℕ) : ℤ) 1

/-- The rational `10 ^ k` for an integer exponent. -/
def zpow10 (k : ℤ) : ℚ :=
  if 0 ≤ k then mkRat ((10 ^ k.toNat : ℕ) : ℤ) 1
  else mkRat 1 (10 ^ (-k).toNat)

/-- The exact value `mantissa * 10 ^ exp10` of a decimal literal. -/
def decimalToRat (mantissa : ℤ) (exp10 : ℤ) : ℚ :=
  if 0 ≤ exp10 then mkRat (mantissa * ((10 ^ exp10.toNat : ℕ) : ℤ)) 1
  else mkRat mantissa (10 ^ (-exp10).toNat)

lemma mkRat_int (n : ℤ) : mkRat n 1 = (n : ℚ) := by
  rw [Rat.mkRat_eq_div]
  simp

lemma qAdd_eq (a b : ℚ) : qAdd a b = a + b := by
  have ha : ((a.den : ℚ)) ≠ 0 := by exact_mod_cast a.den_nz
  have hb : ((b.den : ℚ)) ≠ 0 := by exact_mod_cast b.den_nz
  rw [qAdd, Rat.mkRat_eq_div]
  conv_rhs => rw [← Rat.num_div_den a, ← Rat.num_div_den b,
    div_add_div _ _ ha hb]
  push_cast
  ring_nf

lemma qNeg_eq (a : ℚ) : qNeg a = -a := by
  rw [qNeg, Rat.mkRat_eq_div]
  push_cast
  rw [neg_div, Rat.num_div_den]

lemma qSub_eq (a b : ℚ) : qSub a b = a - b := by
  rw [qSub, qAdd_eq, qNeg_eq, sub_eq_add_neg]

lemma qMul_eq (a b : ℚ) : qMul a b = a * b := by
  rw [qMul, Rat.mkRat_eq_div]
  conv_rhs => rw [← Rat.num_div_den a, ← Rat.num_div_den b,
    div_mul_div_comm]
  push_cast
  ring_nf

lemma qInv_eq (a : ℚ) : qInv a = a⁻¹ := by
  by_cases ha : a = 0
  · simp [ha, qInv, Rat.mkRat_eq_div]
  · have hstep : qInv a = (a.den : ℚ) / (a.num : ℚ) := by
      rcases lt_trichotomy a.num 0 with h | h | h
      · rw [qInv, if_pos h, Rat.mkRat_eq_div]
        have hcast : ((a.num.natAbs : ℕ) : ℚ) = -(a.num : ℚ) := by
          rw [Int.cast_natAbs, abs_of_neg h]
          push_cast
          ring
        rw [hcast]
        push_cast
        rw [neg_div_neg_eq]
      · exact absurd (by rwa [Rat.num_eq_zero] at h) ha
      · rw [qInv, if_neg (by omega), Rat.mkRat_eq_div]
        have hcast : ((a.num.natAbs : ℕ) : ℚ) = (a.num : ℚ) := by
          rw [Int.cast_natAbs, abs_of_pos h]
        rw [hcast]
        push_cast
        ring_nf
    rw [hstep]
    conv_rhs => rw [← Rat.num_div_den a]
    rw [inv_div]

lemma qDiv_eq (a b : ℚ) : qDiv a b = a / b := by
  rw [qDiv, qMul_eq, qInv_eq, div_eq_mul_inv]

lemma pow10_eq (n : ℕ) : pow10 n = (10 : ℚ) ^ n := by
  rw [pow10, Rat.mkRat_eq_div]
  push_cast
  simp

lemma zpow10_eq (k : ℤ) : zpow10 k = (10 : ℚ) ^ k := by
  rcases le_or_lt 0 k with h | h
  · rw [zpow10, if_pos h, Rat.mkRat_eq_div]
    push_cast
    rw [div_one, ← zpow_natCast, Int.toNat_of_nonneg h]
  · rw [zpow10, if_neg (not_le.mpr h), Rat.mkRat_eq_div]
    push_cast
    rw [one_div, ← zpow_natCast, Int.toNat_of_nonneg (by omega),
      ← zpow_neg, neg_neg]

lemma decimalToRat_eq (m e : ℤ) : decimalToRat m e = (m : ℚ) * 10 ^ e := by
  rcases le_or_lt 0 e with h | h
  · rw [decimalToRat, if_pos h, Rat.mkRat_eq_div]
    push_cast
    rw [div_one, ← zpow_natCast, Int.toNat_of_nonneg h]
  · rw [decimalToRat, if_neg (not_le.mpr h), Rat.mkRat_eq_div]
    push_cast
    rw [div_eq_mul_inv, ← zpow_natCast, Int.toNat_of_nonneg (by omega),
      ← zpow_neg, neg_neg]

/-- The `0.001` threshold of the source, as an exact rational. -/
lemma mkRat_thousandth : mkRat 1 1000 = (0.001 : ℚ) := by
  norm_num [Rat.mkRat_eq_div]

/-- The `0.000001` threshold of the source, as an exact rational. -/
lemma mkRat_millionth : mkRat 1 1000000 = (0.000001 : ℚ) := by
  norm_num [Rat.mkRat_eq_div]

/-- Exponent suffix of a Python float literal: either nothing is left (the
exponent is `0`), or `e`/`E`, an optional sign and a nonempty digit string
consume the rest. -/
def parseExpSuffix (cs : List Char) : Option ℤ :=
  match cs with
  | [] => some 0
  | c :: rest =>
    if c = 'e' ∨ c = 'E' then
      match rest with
      | '+' :: ds => (digitList? ds).map (fun n => (n : ℤ))
      | '-' :: ds => (digitList? ds).map (fun n => -(n : ℤ))
      | ds => (digitList? ds).map (fun n => (n : ℤ))
    else none

/-- Unsigned part of a Python float literal: `digits [. digits] [exp]` or
`. digits [exp]`; the value is
`(integer digits ++ fraction digits) * 10 ^ (exp - fraction length)`. -/
def parseUnsignedFloat (cs : List Char) : Option ℚ :=
  let intDigits := cs.takeWhile Char.isDigit
  let rest := cs.dropWhile Char.isDigit
  match rest with
  | '.' :: rest2 =>
    let fracDigits := rest2.takeWhile Char.isDigit
    let rest3 := rest2.dropWhile Char.isDigit
    if intDigits = [] ∧ fracDigits = [] then none
    else
      (parseExpSuffix rest3).map (fun e =>
        decimalToRat (digitsToNat (intDigits ++ fracDigits))
          (e - fracDigits.length))
  | _ =>
    if intDigits = [] then none
    else
      (parseExpSuffix rest).map (fun e =>
        decimalToRat (digitsToNat intDigits) e)

/-- Model of Python `float(s)` on finite decimal strings: surrounding
whitespace is ignored, optional sign, then a decimal literal with optional
fraction and exponent.  (`inf`/`nan` forms, underscores and non-ASCII digits
are outside this model and map to `none`.) -/
def pyFloatParse (s : String) : Option ℚ :=
  match stripWs s.toList with
  | '+' :: rest => parseUnsignedFloat rest
  | '-' :: rest => (parseUnsignedFloat rest).map qNeg
  | rest => parseUnsignedFloat rest

/-- Round a rational to the nearest integer, ties to the even integer —
the rounding used by Python's fixed-point string formatting. -/
def roundHalfEven (q : ℚ) : ℤ :=
  let f := Rat.floor q
  let frac := qSub q (mkRat f 1)
  if frac < mkRat 1 2 then f
  else if mkRat 1 2 < frac then f + 1
  else if f % 2 = 0 then f else f + 1

/-- Left-pad a digit list with `'0'` to the given length. -/
def zeroPadLeft (ds : List Char) (n : Nat) : List Char :=
  List.replicate (n - ds.length) '0' ++ ds

/-- Model of Python `f"{q:.{prec}f}"` fixed-point formatting (half-even
rounding; a negative value rounding to zero keeps its sign, as in CPython). -/
def fmtFixed (q : ℚ) (prec : Nat) : String :=
  let n := roundHalfEven (qMul q (pow10 prec))
  let sign := if q < 0 then "-" else ""
  let m := n.natAbs
  let ip := m / 10 ^ prec
  let fp := m % 10 ^ prec
  if prec = 0 then sign ++ Nat.repr ip
  else sign ++ Nat.repr ip ++ "." ++ String.mk (zeroPadLeft (Nat.toDigits 10 fp) prec)

/-- Number of decimal digits of a natural number (`0` has one digit). -/
def natDigitCount (n : Nat) : Nat := (Nat.toDigits 10 n).length

/-- Split a character list at every occurrence of `sep`; the list of pieces
is never empty (splitting the empty list gives one empty piece, like
Python's `"".split(',') == ['']`). -/
def splitChar (sep : Char) : List Char → List (List Char)
  | [] => [[]]
  | c :: rest =>
    match splitChar sep rest with
    | [] => [[]]
    | h :: t => if c = sep then [] :: h :: t else (c :: h) :: t

/-- Model of Python `s.split(sep)` for a single-character separator. -/
def pySplit (s : String) (sep : Char) : List String :=
  (splitChar sep s.toList).map String.mk

/-- Model of Python `s.lower()` (the source only lowercases ASCII channel
names such as `CH1`). -/
def pyLower (s : String) : String := String.mk (s.toList.map Char.toLower)

/-- Model of Python `sep.join(parts)`. -/
def joinSep (sep : String) : List String → String
  | [] => ""
  | [s] => s
  | s :: rest => s ++ sep ++ joinSep sep rest

/-- Does the character list start with the pattern? -/
def startsWithChars : List Char → List Char → Bool
  | [], _ => true
  | _ :: _, [] => false
  | p :: ps, c :: cs => p = c && startsWithChars ps cs

/-- Does the character list contain the pattern as a contiguous sublist? -/
def containsChars (pat : List Char) : List Char → Bool
  | [] => startsWithChars pat []
  | c :: cs => startsWithChars pat (c :: cs) || containsChars pat cs

/-- Decimal exponent of a positive rational: the unique `e` with
`10 ^ e ≤ a < 10 ^ (e + 1)`. -/
def decExp (a : ℚ) : ℤ :=
  let e0 : ℤ := (natDigitCount a.num.natAbs : ℤ) - (natDigitCount a.den : ℤ)
  if a < zpow10 e0 then e0 - 1
  else if a < zpow10 (e0 + 1) then e0
  else e0 + 1

/-- Drop trailing `'0'` characters. -/
def stripTrailingZeros (ds : List Char) : List Char :=
  (ds.reverse.dropWhile (fun c => c = '0')).reverse

/-- Fixed-notation part of `%.6g`: place the decimal point after `e + 1`
leading digits (or pad with leading zeros for negative `e`), stripping
trailing fractional zeros. -/
def g6Fixed (ds : List Char) (e : ℤ) : String :=
  if e ≥ 0 then
    let k := e.toNat + 1
    let fp := stripTrailingZeros (ds.drop k)
    if fp = [] then String.mk (ds.take k)
    else String.mk (ds.take k) ++ "." ++ String.mk fp
  else
    let fp := stripTrailingZeros (List.replicate (-e - 1).toNat '0' ++ ds)
    "0." ++ String.mk fp

/-- Scientific-notation part of `%.6g`: `d[.ddddd]e±XX` with at least two
exponent digits and trailing mantissa zeros stripped. -/
def g6Sci (ds : List Char) (e : ℤ) : String :=
  let mant :=
    match ds with
    | [] => "0"
    | d :: rest =>
      let fp := stripTrailingZeros rest
      if fp = [] then String.mk [d] else String.mk [d] ++ "." ++ String.mk fp
  let expDigits := zeroPadLeft (Nat.toDigits 10 e.natAbs) 2
  mant ++ "e" ++ (if e < 0 then "-" else "+") ++ String.mk expDigits

/-- Model of Python `f"{q:.6g}"`: six significant digits, fixed notation for
decimal exponents in `[-4, 6)`, scientific notation otherwise. -/
def fmtG6 (q : ℚ) : String :=
  if q = 0 then "0"
  else
    let a := |q|
    let sign := if q < 0 then "-" else ""
    let e0 := decExp a
    let s0 := roundHalfEven (qMul a (zpow10 ((5 : ℤ) - e0)))
    let s := if s0 = 10 ^ 6 then (10 ^ 5 : ℤ) else s0
    let e := if s0 = 10 ^ 6 then e0 + 1 else e0
    let ds := Nat.toDigits 10 s.natAbs
    if -4 ≤ e ∧ e < 6 then sign ++ g6Fixed ds e else sign ++ g6Sci ds e

/-! ## `m2000_units.py` -/

/-- `get_base_unit` from `m2000_units.py`: base unit suffix per parameter. -/
def get_base_unit (parameter : String) : String :=
  if parameter = "V" then "V"
  else if parameter = "A" then "A"
  else if parameter = "W" then "W"
  else if parameter = "VA" then "VA"
  else if parameter = "VAR" then "VAR"
  else if parameter = "PF" then ""
  else if parameter = "FREQ" then "Hz"
  else if parameter = "PHASE" then "°"
  else if parameter = "THDF" then "%"
  else if parameter = "THDSIG" then "%"
  else if parameter = "CF" then ""
  else if parameter = "FF" then ""
  else ""

/-- Append a unit suffix when units are requested. -/
def withUnit (s : String) (unit : String) (include_units : Bool) : String :=
  if include_units then s ++ " " ++ unit else s

/-- Six-decade scaling used for V, A, W, VA and VAR in `format_measurement`:
thresholds `≥ 10^6, ≥ 10^3, ≥ 1, ≥ 10^-3, ≥ 10^-6`, else nano. The voltage
and current branches of the source skip the mega decade, which callers
select with `useMega := false`. -/
def scaleSix (val : ℚ) (base : String) (include_units : Bool)
    (useMega : Bool) : String :=
  let a := |val|
  if useMega ∧ a ≥ 1000000 then
    withUnit (fmtFixed (qDiv val 1000000) 3) ("M" ++ base) include_units
  else if a ≥ 1000 then
    withUnit (fmtFixed (qDiv val 1000) 3) ("k" ++ base) include_units
  else if a ≥ 1 then
    withUnit (fmtFixed val 3) base include_units
  else if a ≥ mkRat 1 1000 then
    withUnit (fmtFixed (qMul val 1000) 1) ("m" ++ base) include_units
  else if a ≥ mkRat 1 1000000 then
    withUnit (fmtFixed (qMul val 1000000) 0) ("μ" ++ base) include_units
  else
    withUnit (fmtFixed (qMul val 1000000000) 0) ("n" ++ base) include_units

/-- `format_measurement` from `m2000_units.py` (numeric input; the Python
`None` input and the failed `float()` coercion paths do not arise for
rational inputs). -/
def format_measurement (value : ℚ) (parameter : String)
    (include_units : Bool := true) : String :=
  if value = 0 then
    if include_units then "0.000 " ++ get_base_unit parameter else "0.000"
  else if parameter = "PF" then fmtFixed value 4
  else if parameter = "PHASE" then
    if include_units then fmtFixed value 2 ++ "°" else fmtFixed value 2
  else if parameter = "V" then scaleSix value "V" include_units false
  else if parameter = "A" then scaleSix value "A" include_units false
  else if parameter = "W" then scaleSix value "W" include_units true
  else if parameter = "VA" ∨ parameter = "VAR" then
    scaleSix value (get_base_unit parameter) include_units true
  else if parameter = "FREQ" then
    let a := |value|
    if a ≥ 1000000 then
      withUnit (fmtFixed (qDiv value 1000000) 3) "MHz" include_units
    else if a ≥ 1000 then
      withUnit (fmtFixed (qDiv value 1000) 3) "kHz" include_units
    else withUnit (fmtFixed value 3) "Hz" include_units
  else
    if include_units ∧ get_base_unit parameter ≠ "" then
      fmtG6 value ++ " " ++ get_base_unit parameter
    else fmtG6 value

/-! ## Measurement codec (`get_measurement` in all three clients)

`M2000_LAN.get_measurement`, `M2000_RS232.get_measurement` and
`M2000_USB.get_measurement` contain the same request builder and the same
response decoder; they are embedded once here. -/

/-- Parameter-name translation inside `get_measurement`: `V`→`VOLTS`,
`A`→`AMPS`, `W`→`WATTS`, everything else passes through. -/
def convParam (p : String) : String :=
  if p = "V" then "VOLTS"
  else if p = "A" then "AMPS"
  else if p = "W" then "WATTS"
  else p

/-- The parameter-major, channel-minor traversal order of the nested
`for param in parameters: for channel in channels:` loops. -/
def requestPairs (channels parameters : List String) : List (String × String) :=
  parameters.flatMap (fun param => channels.map (fun channel => (channel, param)))

/-- Dictionary key `f"{channel}_{param}"` for one channel/parameter pair. -/
def keyOf (cp : String × String) : String := cp.1 ++ "_" ++ cp.2

/-- One `READ?,{channel.lower()}:{m2000_param}:ACDC` field. -/
def readField (cp : String × String) : String :=
  "READ?," ++ pyLower cp.1 ++ ":" ++ convParam cp.2 ++ ":ACDC"

/-- The full batched read command: one field per combination, joined with
semicolons (`";".join(read_fields)`). -/
def buildReadCommand (channels parameters : List String) : String :=
  joinSep ";" ((requestPairs channels parameters).map readField)

/-- A decoded measurement value: the `float` parse of a field, or the raw
string when the parse fails. -/
inductive MValue where
  | num (q : ℚ)
  | str (s : String)
deriving DecidableEq, Repr

/-- Field coercion in the decode loop: `float(values[idx])` with a
`ValueError` fallback to the raw string. -/
def coerceValue (s : String) : MValue :=
  match pyFloatParse s with
  | some q => MValue.num q
  | none => MValue.str s

/-- CPython (≥ 3.7) dictionary insertion: an existing key is overwritten in
place, a new key is appended at the end. -/
def dictInsert (d : List (String × MValue)) (k : String) (v : MValue) :
    List (String × MValue) :=
  if d.any (fun kv => kv.1 = k) then
    d.map (fun kv => if kv.1 = k then (k, v) else kv)
  else d ++ [(k, v)]

/-- The decode loop of `get_measurement`: walk the channel/parameter pairs in
request order keeping a positional index; assign `values[idx]` when
`idx < len(values)`, otherwise skip the pair (the index does not advance). -/
def decodeLoop : List (String × String) → List String → Nat →
    List (String × MValue) → List (String × MValue)
  | [], _, _, results => results
  | cp :: rest, values, idx, results =>
    if h : idx < values.length then
      decodeLoop rest values (idx + 1)
        (dictInsert results (keyOf cp) (coerceValue (values.get ⟨idx, h⟩)))
    else decodeLoop rest values idx results

/-- Decoding part of `get_measurement`: a falsy (empty) response returns
`None`; otherwise the response is split on commas and fed to the decode
loop. -/
def getMeasurementDecode (channels parameters : List String)
    (response : String) : Option (List (String × MValue)) :=
  if response = "" then none
  else some (decodeLoop (requestPairs channels parameters) (pySplit response ',') 0 [])

/-! ## Connection state machines (`connect` / `disconnect` / reads) -/

/-- Python truthiness of an optional string (`None` and `""` are falsy). -/
def optTruthy : Option String → Bool
  | some s => s ≠ ""
  | none => false

/-- Substring test: `pat in s`. -/
def strContainsSub (s pat : String) : Bool := containsChars pat.toList s.toList

/-- `if response and 'APS' in response:` — the identity acceptance test. -/
def idnAccepted (response : Option String) : Bool :=
  match response with
  | some s => s ≠ "" ∧ strContainsSub s "APS"
  | none => false

/-- State of `M2000_LAN`: `hasSocket` models `self.socket is not None`,
`connected` models `self.connected`. -/
structure LANState where
  hasSocket : Bool
  connected : Bool
deriving DecidableEq, Repr

/-- `M2000_LAN.__init__` leaves `socket = None`, `connected = False`. -/
def lanInit : LANState := ⟨false, false⟩

/-- Guard of `M2000_LAN.send_command`: raises `"Not connected to M2000"`
unless `self.connected` and `self.socket` are both truthy; afterwards the
transport write itself may fail (`writeOk`). -/
def lanSendCommand (st : LANState) (writeOk : Bool) : Except String Unit :=
  if ¬ st.connected ∨ ¬ st.hasSocket then Except.error "Not connected to M2000"
  else if writeOk then Except.ok () else Except.error "send failed"

/-- `M2000_LAN.connect` with a device oracle mapping each query to its reply
(the TCP connect itself and all transport writes are taken to succeed, to
isolate the protocol logic).  The flow: open the socket, `send_command('*RST')`,
`send_command('*CLS')`, `query('*IDN?')`, then the `'APS' in response` check;
every raised exception is caught and turns into a `False` return. -/
def lanConnect (dev : String → Option String) (st : LANState) :
    LANState × Bool :=
  let st1 : LANState := { st with hasSocket := true }
  match lanSendCommand st1 true with
  | Except.error _ => (st1, false)
  | Except.ok _ =>
    match lanSendCommand st1 true with
    | Except.error _ => (st1, false)
    | Except.ok _ =>
      let response := dev "*IDN?"
      if idnAccepted response then ({ st1 with connected := true }, true)
      else (st1, false)

/-- State of `M2000_RS232`: `hasConn` models `self.connection is not None`,
`isOpen` models `self.connection.is_open`. -/
structure RS232State where
  hasConn : Bool
  isOpen : Bool
  connected : Bool
deriving DecidableEq, Repr

/-- `M2000_RS232.__init__` leaves `connection = None`, `connected = False`. -/
def rs232Init : RS232State := ⟨false, false, false⟩

/-- Guard of `M2000_RS232.send_command`: raises unless `self.connected` and
the port is open; afterwards the serial write may fail. -/
def rs232SendCommand (st : RS232State) (writeOk : Bool) : Except String Unit :=
  if ¬ st.connected ∨ ¬ st.isOpen then Except.error "Not connected to M2000"
  else if writeOk then Except.ok () else Except.error "send failed"

/-- `M2000_RS232.connect`: open the serial port, clear buffers, settle, then
`send_command('*RST')`, `send_command('*CLS')`, `query('*IDN?')` and the
identity check; all exceptions are caught and produce a `False` return. -/
def rs232Connect (dev : String → Option String) (st : RS232State) :
    RS232State × Bool :=
  let st1 : RS232State := { st with hasConn := true, isOpen := true }
  match rs232SendCommand st1 true with
  | Except.error _ => (st1, false)
  | Except.ok _ =>
    match rs232SendCommand st1 true with
    | Except.error _ => (st1, false)
    | Except.ok _ =>
      let response := dev "*IDN?"
      if idnAccepted response then ({ st1 with connected := true }, true)
      else (st1, false)

/-- State of `M2000_USB`: `hasDevice` models `self.device is not None`. -/
structure USBState where
  hasDevice : Bool
  connected : Bool
deriving DecidableEq, Repr

/-- `M2000_USB.__init__` leaves `device = None`, `connected = False`. -/
def usbInit : USBState := ⟨false, false⟩

/-- Guard of `M2000_USB.send_command`: raises unless `self.connected` and
`self.device` are truthy; afterwards the HID write may fail. -/
def usbSendCommand (st : USBState) (writeOk : Bool) : Except String Unit :=
  if ¬ st.connected ∨ ¬ st.hasDevice then Except.error "Not connected to M2000"
  else if writeOk then Except.ok () else Except.error "send failed"

/-- `M2000_USB.connect`: open the HID device, settle, then
`send_command('*RST')`, `send_command('*CLS')`, `query('*IDN?')` and the
identity check; all exceptions are caught and produce a `False` return. -/
def usbConnect (dev : String → Option String) (st : USBState) :
    USBState × Bool :=
  let st1 : USBState := { st with hasDevice := true }
  match usbSendCommand st1 true with
  | Except.error _ => (st1, false)
  | Except.ok _ =>
    match usbSendCommand st1 true with
    | Except.error _ => (st1, false)
    | Except.ok _ =>
      let response := dev "*IDN?"
      if idnAccepted response then ({ st1 with connected := true }, true)
      else (st1, false)

/-- Outcome of a disconnect call: whether an exception escaped, whether the
transport `close()` call was actually reached, and the final Python-visible
attribute state. -/
structure DisconnectResult (σ : Type) where
  raised : Bool
  closeCalled : Bool
  final : σ
deriving DecidableEq, Repr

/-- `M2000_LAN.disconnect`: when a socket object exists, a `try` block sends
`LOCAL` (only if `connected`) and then calls `close()`; any exception is
swallowed, and a `finally` block always clears `connected` and drops the
socket reference.  When the `LOCAL` send raises, control jumps past
`close()` — the socket is dropped without being closed. -/
def lanDisconnect (localWriteOk : Bool) (st : LANState) :
    DisconnectResult LANState :=
  if st.hasSocket then
    let sendOk := if st.connected then
        match lanSendCommand st localWriteOk with
        | Except.ok _ => true
        | Except.error _ => false
      else true
    { raised := false, closeCalled := sendOk,
      final := { hasSocket := false, connected := false } }
  else { raised := false, closeCalled := false, final := st }

/-- `M2000_USB.disconnect`: same `try`/`except`/`finally` shape as the LAN
client, with the HID device handle in place of the socket. -/
def usbDisconnect (localWriteOk : Bool) (st : USBState) :
    DisconnectResult USBState :=
  if st.hasDevice then
    let sendOk := if st.connected then
        match usbSendCommand st localWriteOk with
        | Except.ok _ => true
        | Except.error _ => false
      else true
    { raised := false, closeCalled := sendOk,
      final := { hasDevice := false, connected := false } }
  else { raised := false, closeCalled := false, final := st }

/-- `M2000_RS232.disconnect`: `if self.connection and self.connection.is_open:`
then `send_command('LOCAL')`, `close()`, `connected = False` — with no
`try`/`except`, so an exception from the `LOCAL` send (in particular the
not-connected guard) propagates and skips the `close()` call. -/
def rs232Disconnect (localWriteOk : Bool) (st : RS232State) :
    DisconnectResult RS232State :=
  if st.hasConn ∧ st.isOpen then
    match rs232SendCommand st localWriteOk with
    | Except.error _ => { raised := true, closeCalled := false, final := st }
    | Except.ok _ =>
      { raised := false, closeCalled := true,
        final := { st with isOpen := false, connected := false } }
  else { raised := false, closeCalled := false, final := st }

/-! ### Byte-level reads -/

/-- One event delivered by `socket.recv(1)` in `M2000_LAN.read_response`:
a byte, an orderly close (empty read), a `socket.timeout`, or another
socket exception. -/
inductive LanRecv where
  | byte (c : Char)
  | closed
  | tmo
  | exc
deriving DecidableEq, Repr

/-- Result of a read call: a returned string, a returned `None`, a raised
timeout error, a raised not-connected error, or the model running out of
oracle events (the real code would still be blocking). -/
inductive ReadResult where
  | ok (s : String)
  | noneVal
  | raisedTimeout
  | raisedNotConnected
  | blocked
deriving DecidableEq, Repr

/-- Is the result a raised exception (as opposed to a normal return)? -/
def ReadResult.isRaised : ReadResult → Bool
  | ReadResult.raisedTimeout => true
  | ReadResult.raisedNotConnected => true
  | _ => false

/-- The accumulation loop of `M2000_LAN.read_response`: read single bytes
until a line feed (or empty read) terminates the response, skipping carriage
returns; `socket.timeout` re-raises as `Exception("Read timeout")`, any other
exception prints and returns `None`. -/
def lanReadLoop : List LanRecv → String → ReadResult
  | [], _ => ReadResult.blocked
  | ev :: rest, acc =>
    match ev with
    | LanRecv.byte c =>
      if c = '\n' then ReadResult.ok acc
      else if c = '\r' then lanReadLoop rest acc
      else lanReadLoop rest (acc.push c)
    | LanRecv.closed => ReadResult.ok acc
    | LanRecv.tmo => ReadResult.raisedTimeout
    | LanRecv.exc => ReadResult.noneVal

/-- `M2000_LAN.read_response`: the not-connected guard, then the byte loop. -/
def lanReadResponse (st : LANState) (events : List LanRecv) : ReadResult :=
  if ¬ st.connected ∨ ¬ st.hasSocket then ReadResult.raisedNotConnected
  else lanReadLoop events ""

/-- One iteration's input in `M2000_USB.read_response`: a 64-byte HID report,
an empty read, or an exception from `device.read` (swallowed by the inner
handler). The `Nat` in `usbReadLoop`'s event list is the wall-clock
elapsed time in milliseconds observed at that iteration's timeout check. -/
inductive UsbRecv where
  | report (bytes : List Nat)
  | empty
  | exc
deriving DecidableEq, Repr

/-- Scan of one HID report's payload (`data[1:]`): byte 0 stops the scan,
byte 10 ends the response, byte 13 is skipped, printable ASCII is appended,
anything else stops the scan. -/
def usbScanReport : List Nat → String → Sum String String
  | [], acc => Sum.inl acc
  | b :: rest, acc =>
    if b = 0 then Sum.inl acc
    else if b = 10 then Sum.inr acc
    else if b = 13 then usbScanReport rest acc
    else if 32 ≤ b ∧ b ≤ 126 then usbScanReport rest (acc.push (Char.ofNat b))
    else Sum.inl acc

/-- The wait loop of `M2000_USB.read_response`: each iteration first checks
`(time.time() - start_time) * 1000 > self.timeout` and raises
`Exception("Read timeout")` when exceeded — but that raise happens inside the
function's own `try`, whose handler prints and returns `None`; otherwise one
HID read is processed. -/
def usbReadLoop (timeoutMs : Nat) : List (Nat × UsbRecv) → String → ReadResult
  | [], _ => ReadResult.blocked
  | (t, ev) :: rest, acc =>
    if timeoutMs < t then ReadResult.noneVal
    else
      match ev with
      | UsbRecv.empty => usbReadLoop timeoutMs rest acc
      | UsbRecv.exc => usbReadLoop timeoutMs rest acc
      | UsbRecv.report bytes =>
        match usbScanReport (bytes.drop 1) acc with
        | Sum.inr s => ReadResult.ok s
        | Sum.inl acc2 => usbReadLoop timeoutMs rest acc2

/-- `M2000_USB.read_response`: the not-connected guard precedes the `try`
block, so it raises; everything inside the loop that raises is caught and
turned into a `None` return. -/
def usbReadResponse (st : USBState) (timeoutMs : Nat)
    (events : List (Nat × UsbRecv)) : ReadResult :=
  if ¬ st.connected ∨ ¬ st.hasDevice then ReadResult.raisedNotConnected
  else usbReadLoop timeoutMs events ""

/-! ## Streaming engine (`stream_data`) -/

/-- What one iteration of the LAN/USB/RS232 streaming loop does to the
protocol: which query strings it issues and the new `sample_count`. -/
structure StreamIterResult where
  issued : List String
  sampleCount : Nat
deriving DecidableEq, Repr

/-- One iteration of the measurement part of `stream_data`: issue the full
prebuilt command while `sample_count == 0`, `REREAD?` afterwards; a truthy
response increments `sample_count`; a falsy response ends the iteration with
no further query. -/
def streamIteration (command : String) (sampleCount : Nat)
    (dev : String → Option String) : StreamIterResult :=
  let q := if sampleCount = 0 then command else "REREAD?"
  let response := dev q
  { issued := [q],
    sampleCount := if optTruthy response then sampleCount + 1 else sampleCount }

/-- Sleep computed at the end of each `M2000_LAN.stream_data` iteration:
`max(0, 1.0 / sample_rate - elapsed)` where `elapsed` is measured from the
iteration's own `sample_start`. -/
def lanStreamSleep (sampleRate elapsed : ℚ) : ℚ :=
  max 0 (1 / sampleRate - elapsed)

/-- `M2000_USB.stream_data` computes the same per-iteration sleep. -/
def usbStreamSleep (sampleRate elapsed : ℚ) : ℚ :=
  max 0 (1 / sampleRate - elapsed)

/-- `M2000_RS232.stream_data` sleeps `time.sleep(1.0 / sample_rate)`
unconditionally: the argument does not depend on the iteration's elapsed
processing time. -/
def rs232StreamSleep (sampleRate : ℚ) : ℚ := 1 / sampleRate

/-- Wall-clock end of a LAN streaming iteration that starts at `t0` and
finishes its processing at `t1`. -/
def lanIterationEnd (sampleRate t0 t1 : ℚ) : ℚ :=
  t1 + lanStreamSleep sampleRate (t1 - t0)

/-- Wall-clock end of a USB streaming iteration. -/
def usbIterationEnd (sampleRate t0 t1 : ℚ) : ℚ :=
  t1 + usbStreamSleep sampleRate (t1 - t0)

/-! ## `check_errors` (identical in all three clients) -/

/-- `check_errors`: query `*ERR?`; a falsy or `'0'` reply returns `0`,
anything else is passed to `int(...)`, whose `ValueError` (for a non-integer
reply) escapes the method. -/
def checkErrors (reply : Option String) : Except String ℤ :=
  match reply with
  | none => Except.ok 0
  | some s =>
    if s ≠ "" ∧ s ≠ "0" then
      match pyIntParse s with
      | some n => Except.ok n
      | none => Except.error "invalid literal for int"
    else Except.ok 0

/-! ## Helper lemmas about the decode loop -/

/-- List-consuming reformulation of `decodeLoop`: once the positional index
is abstracted away, the loop zips pairs with the remaining values. -/
def decodeZip : List (String × String) → List String →
    List (String × MValue) → List (String × MValue)
  | [], _, acc => acc
  | _ :: _, [], acc => acc
  | cp :: rest, v :: vs, acc =>
    decodeZip rest vs (dictInsert acc (keyOf cp) (coerceValue v))

lemma drop_eq_get_cons_aux {α : Type} :
    ∀ (l : List α) (i : Nat) (h : i < l.length),
      l.drop i = l.get ⟨i, h⟩ :: l.drop (i + 1)
  | _ :: _, 0, _ => rfl
  | _ :: l, i + 1, h =>
    drop_eq_get_cons_aux l i (Nat.lt_of_succ_lt_succ h)

lemma decodeLoop_of_le :
    ∀ (pairs : List (String × String)) (vals : List String) (idx : Nat)
      (acc : List (String × MValue)), vals.length ≤ idx →
      decodeLoop pairs vals idx acc = acc
  | [], _, _, _, _ => rfl
  | _ :: rest, vals, idx, acc, h => by
    rw [decodeLoop, dif_neg (by omega)]
    exact decodeLoop_of_le rest vals idx acc h

lemma decodeLoop_eq_decodeZip :
    ∀ (pairs : List (String × String)) (vals : List String) (idx : Nat)
      (acc : List (String × MValue)),
      decodeLoop pairs vals idx acc = decodeZip pairs (vals.drop idx) acc
  | [], vals, idx, acc => by cases vals.drop idx <;> rfl
  | cp :: rest, vals, idx, acc => by
    by_cases h : idx < vals.length
    · rw [decodeLoop, dif_pos h, drop_eq_get_cons_aux vals idx h, decodeZip]
      exact decodeLoop_eq_decodeZip rest vals (idx + 1) _
    · rw [decodeLoop_of_le _ _ _ _ (Nat.le_of_not_lt h),
        List.drop_eq_nil_of_le (Nat.le_of_not_lt h)]
      rfl

lemma dictInsert_not_mem (d : List (String × MValue)) (k : String) (v : MValue)
    (h : k ∉ d.map Prod.fst) : dictInsert d k v = d ++ [(k, v)] := by
  have hany : d.any (fun kv => kv.1 = k) = false := by
    rw [List.any_eq_false]
    intro kv hkv heq
    exact h (List.mem_map.mpr ⟨kv, hkv, of_decide_eq_true heq⟩)
  simp [dictInsert, hany]

/-- The pair built for one positional field in the decode loop. -/
def decodedEntry (cp : String × String) (v : String) : String × MValue :=
  (keyOf cp, coerceValue v)

lemma decodeZip_append :
    ∀ (pairs : List (String × String)) (vals : List String)
      (acc : List (String × MValue)),
      (acc.map Prod.fst ++ pairs.map keyOf).Nodup →
      decodeZip pairs vals acc = acc ++ List.zipWith decodedEntry pairs vals
  | [], vals, acc, _ => by cases vals <;> simp [decodeZip]
  | _ :: _, [], acc, _ => by simp [decodeZip]
  | cp :: rest, v :: vs, acc, h => by
    have hdisj := (List.nodup_append.mp h).2.2
    have hk : keyOf cp ∉ acc.map Prod.fst := by
      intro hmem
      exact hdisj hmem (List.mem_cons_self _ _)
    rw [decodeZip, dictInsert_not_mem acc (keyOf cp) (coerceValue v) hk]
    have h2 : ((acc ++ [(keyOf cp, coerceValue v)]).map Prod.fst ++
        rest.map keyOf).Nodup := by
      simpa [List.append_assoc] using h
    rw [decodeZip_append rest vs _ h2]
    simp [decodedEntry]

lemma zipWith_decodedEntry_keys :
    ∀ (pairs : List (String × String)) (vals : List String),
      (List.zipWith decodedEntry pairs vals).map Prod.fst =
        (pairs.map keyOf).take vals.length
  | [], _ => by simp
  | _ :: _, [] => by simp
  | cp :: rest, v :: vs => by
    simpa [decodedEntry] using zipWith_decodedEntry_keys rest vs

lemma requestPairs_length (channels parameters : List String) :
    (requestPairs channels parameters).length =
      parameters.length * channels.length := by
  induction parameters with
  | nil => simp [requestPairs]
  | cons p ps ih =>
    simp only [requestPairs, List.flatMap_cons, List.length_append,
      List.length_map, List.length_cons] at *
    rw [ih]
    ring

/-- The decode loop on a fully supplied, collision-free response: one entry
per requested combination, in request order, each the coerced positional
field. -/
lemma decode_full (channels parameters : List String) (response : String)
    (hresp : response ≠ "")
    (hnd : ((requestPairs channels parameters).map keyOf).Nodup) :
    getMeasurementDecode channels parameters response =
      some (List.zipWith decodedEntry (requestPairs channels parameters)
        (pySplit response ',')) := by
  rw [getMeasurementDecode, if_neg hresp, decodeLoop_eq_decodeZip,
    List.drop_zero, decodeZip_append _ _ [] (by simpa using hnd),
    List.nil_append]

lemma take_all_of_length_le {α : Type} :
    ∀ (l : List α) (n : Nat), l.length ≤ n → l.take n = l
  | [], _, _ => by simp
  | _ :: l, _ + 1, h =>
    congrArg _ (take_all_of_length_le l _ (Nat.le_of_succ_le_succ h))

/-! ## Claim theorems -/

/-- C1: the claimed connect lifecycle cannot succeed.  In all three clients,
`connect` calls `send_command('*RST')` while `self.connected` is still
`False`, so the guard inside `send_command` raises "Not connected to M2000";
`connect` catches the exception and returns `False` — for every device reply,
including one whose `*IDN?` answer contains "APS".  The Ready state is never
entered. -/
theorem connect_never_succeeds : ∀ dev : String → Option String,
    (lanConnect dev lanInit).2 = false ∧
    (lanConnect dev lanInit).1.connected = false ∧
    (rs232Connect dev rs232Init).2 = false ∧
    (rs232Connect dev rs232Init).1.connected = false ∧
    (usbConnect dev usbInit).2 = false ∧
    (usbConnect dev usbInit).1.connected = false := by
  intro dev
  exact ⟨rfl, rfl, rfl, rfl, rfl, rfl⟩

/-- C2: for nonempty channel and parameter selections whose generated keys
are pairwise distinct, and a nonempty response carrying at least
`|parameters| * |channels|` comma-separated fields, the decode part of
`get_measurement` returns the map pairing every `{channel}_{parameter}` key,
in parameter-major channel-minor request order, with the float-parse-or-raw
coercion of its positional field; the key list is exactly the request's key
list. -/
theorem decode_of_complete_response (channels parameters : List String)
    (response : String) (_hch : channels ≠ []) (_hp : parameters ≠ [])
    (hresp : response ≠ "")
    (hnd : ((requestPairs channels parameters).map keyOf).Nodup)
    (hlen : parameters.length * channels.length ≤
      (pySplit response ',').length) :
    getMeasurementDecode channels parameters response =
      some (List.zipWith decodedEntry (requestPairs channels parameters)
        (pySplit response ',')) ∧
    (List.zipWith decodedEntry (requestPairs channels parameters)
        (pySplit response ',')).map Prod.fst =
      (requestPairs channels parameters).map keyOf := by
  refine ⟨decode_full _ _ _ hresp hnd, ?_⟩
  rw [zipWith_decodedEntry_keys, take_all_of_length_le]
  rw [List.length_map, requestPairs_length]
  exact hlen

/-- Witness for C2 at the spec's concrete example
`(parameters=[V,A,W], channels=[CH1], response="230.45,1.234,284.5")`. -/
theorem decode_of_complete_response_witness :
    (["CH1"] : List String) ≠ [] ∧ (["V", "A", "W"] : List String) ≠ [] ∧
    ("230.45,1.234,284.5" : String) ≠ "" ∧
    ((requestPairs ["CH1"] ["V", "A", "W"]).map keyOf).Nodup ∧
    (["V", "A", "W"] : List String).length * (["CH1"] : List String).length ≤
      (pySplit "230.45,1.234,284.5" ',').length ∧
    getMeasurementDecode ["CH1"] ["V", "A", "W"] "230.45,1.234,284.5" =
      some [("CH1_V", MValue.num (230.45 : ℚ)),
        ("CH1_A", MValue.num (1.234 : ℚ)),
        ("CH1_W", MValue.num (284.5 : ℚ))] :=
  ⟨by decide, by decide, by decide, by decide, by decide, by
    have h1 : (230.45 : ℚ) = mkRat 23045 100 := by norm_num [Rat.mkRat_eq_div]
    have h2 : (1.234 : ℚ) = mkRat 1234 1000 := by norm_num [Rat.mkRat_eq_div]
    have h3 : (284.5 : ℚ) = mkRat 2845 10 := by norm_num [Rat.mkRat_eq_div]
    rw [(decode_of_complete_response ["CH1"] ["V", "A", "W"]
      "230.45,1.234,284.5" (by decide) (by decide) (by decide) (by decide)
      (by decide)).1, h1, h2, h3]
    decide⟩

/-- C3 counterexample: an RS232 connection that was opened but never reached
Ready (`connection.is_open` true, `connected` still false — exactly the state
left behind by a failed identity check).  `disconnect` has no error
suppression: the `LOCAL` send's not-connected guard raises, the exception
escapes, and `connection.close()` is never reached. -/
theorem rs232_disconnect_raises_when_not_ready :
    (rs232Disconnect true ⟨true, true, false⟩).raised = true ∧
    (rs232Disconnect true ⟨true, true, false⟩).closeCalled = false ∧
    (rs232Disconnect true ⟨true, true, false⟩).final.isOpen = true := by
  decide

/-- C3 amended: the LAN and USB `disconnect` never raise (their `try` blocks
swallow every error) and always clear the connection attributes — though a
failing `LOCAL` send skips the `close()` call; the RS232 `disconnect`, on an
open connection that never reached Ready, raises instead of releasing the
port. -/
theorem disconnect_error_suppression : ∀ (w c : Bool),
    (lanDisconnect w ⟨true, c⟩).raised = false ∧
    (lanDisconnect w ⟨false, c⟩).raised = false ∧
    (lanDisconnect w ⟨true, c⟩).final = ⟨false, false⟩ ∧
    (usbDisconnect w ⟨true, c⟩).raised = false ∧
    (usbDisconnect w ⟨false, c⟩).raised = false ∧
    (usbDisconnect w ⟨true, c⟩).final = ⟨false, false⟩ ∧
    (lanDisconnect false ⟨true, true⟩).closeCalled = false ∧
    (rs232Disconnect w ⟨true, true, false⟩).raised = true := by
  decide

/-- C4 counterexample: a truncated reply ("1.5" for the two-field request
`[V, A] × [CH1]`) does not fail — `get_measurement` returns a partial
one-entry map, not a dropped sample. -/
theorem truncated_response_yields_incomplete_sample :
    getMeasurementDecode ["CH1"] ["V", "A"] "1.5" =
      some [("CH1_V", MValue.num (1.5 : ℚ))] ∧
    getMeasurementDecode ["CH1"] ["V", "A"] "1.5" ≠ none := by
  have h : (1.5 : ℚ) = mkRat 15 10 := by norm_num [Rat.mkRat_eq_div]
  rw [h]
  exact ⟨by decide, by decide⟩

/-- C4 amended: only a falsy (empty) response makes decoding fail with
`None`; a nonempty response with fewer fields than requested yields a
partial map holding the first `len(fields)` combinations, and a field that
cannot be parsed numerically degrades to its raw string without failing. -/
theorem decode_failure_and_degradation (channels parameters : List String)
    (response : String) (hresp : response ≠ "")
    (hnd : ((requestPairs channels parameters).map keyOf).Nodup) :
    getMeasurementDecode channels parameters "" = none ∧
    (∃ m, getMeasurementDecode channels parameters response = some m ∧
      m.length = min (parameters.length * channels.length)
        ((pySplit response ',').length) ∧
      m.map Prod.fst = ((requestPairs channels parameters).map keyOf).take
        ((pySplit response ',').length)) ∧
    (∀ s : String, pyFloatParse s = none → coerceValue s = MValue.str s) := by
  refine ⟨rfl, ⟨_, decode_full _ _ _ hresp hnd, ?_, ?_⟩, ?_⟩
  · rw [List.length_zipWith, requestPairs_length]
  · exact zipWith_decodedEntry_keys _ _
  · intro s hs
    simp [coerceValue, hs]

/-- Witness for C4's amended statement at the truncated input
`channels=[CH1], parameters=[V,A], response="1.5"`. -/
theorem decode_failure_and_degradation_witness :
    ("1.5" : String) ≠ "" ∧
    ((requestPairs ["CH1"] ["V", "A"]).map keyOf).Nodup ∧
    (∃ m, getMeasurementDecode ["CH1"] ["V", "A"] "1.5" = some m ∧
      m.length = min ((["V", "A"] : List String).length *
        (["CH1"] : List String).length)
        ((pySplit "1.5" ',').length) ∧
      m.map Prod.fst = ((requestPairs ["CH1"] ["V", "A"]).map keyOf).take
        ((pySplit "1.5" ',').length)) :=
  ⟨by decide, by decide,
    (decode_failure_and_degradation ["CH1"] ["V", "A"] "1.5"
      (by decide) (by decide)).2.1⟩

/-- C5 counterexample: after a first successful sample (`sample_count = 1`),
an iteration whose `REREAD?` reply is falsy issues no further query — the
full built request is never re-sent within that sample, contradicting the
claimed one-shot fallback. -/
theorem reread_empty_no_fallback :
    (streamIteration (buildReadCommand ["CH1"] ["V"]) 1
      (fun _ => none)).issued = ["REREAD?"] ∧
    buildReadCommand ["CH1"] ["V"] ∉
      (streamIteration (buildReadCommand ["CH1"] ["V"]) 1
        (fun _ => none)).issued ∧
    (streamIteration (buildReadCommand ["CH1"] ["V"]) 1
      (fun _ => none)).sampleCount = 1 := by
  decide

/-- C5 amended: each streaming iteration issues exactly one query — the full
built command while `sample_count = 0`, the zero-argument `REREAD?` once a
sample has succeeded — and the counter advances exactly on truthy responses;
a falsy fast-path reply simply ends the iteration with no fallback query. -/
theorem stream_query_selection : ∀ (command : String) (n : Nat)
    (dev : String → Option String),
    (streamIteration command n dev).issued =
      [if n = 0 then command else "REREAD?"] ∧
    (streamIteration command n dev).issued.length = 1 ∧
    (streamIteration command n dev).sampleCount =
      (if optTruthy (dev (if n = 0 then command else "REREAD?"))
        then n + 1 else n) := by
  intro command n dev
  exact ⟨rfl, rfl, rfl⟩

/-- C6 counterexample: with `sample_rate = 1` and half a second of
processing, the RS232 loop sleeps the full `1/rate = 1` second, not the
claimed `max(0, 1/rate − elapsed) = 1/2`. -/
theorem rs232_sleep_ignores_elapsed :
    rs232StreamSleep 1 = 1 ∧
    max (0 : ℚ) (1 / 1 - 1 / 2) = 1 / 2 ∧
    rs232StreamSleep 1 ≠ max (0 : ℚ) (1 / 1 - 1 / 2) := by
  refine ⟨by norm_num [rs232StreamSleep], by norm_num, ?_⟩
  norm_num [rs232StreamSleep]

/-- C6 amended: the LAN and USB streaming loops measure each iteration's own
wall-clock start and sleep `max(0, 1/rate − elapsed)` — so whenever the
processing fits inside the period the iteration ends exactly one period
after its start — while the RS232 loop sleeps a fixed `1/rate` regardless of
its elapsed processing time. -/
theorem stream_sleep_timing (rate t0 t1 : ℚ) (h : t1 - t0 ≤ 1 / rate) :
    lanStreamSleep rate (t1 - t0) = max 0 (1 / rate - (t1 - t0)) ∧
    usbStreamSleep rate (t1 - t0) = max 0 (1 / rate - (t1 - t0)) ∧
    lanIterationEnd rate t0 t1 - t0 = 1 / rate ∧
    usbIterationEnd rate t0 t1 - t0 = 1 / rate ∧
    rs232StreamSleep rate = 1 / rate := by
  have hmax : max (0 : ℚ) (1 / rate - (t1 - t0)) = 1 / rate - (t1 - t0) :=
    max_eq_right (by linarith)
  refine ⟨rfl, rfl, ?_, ?_, rfl⟩ <;>
    · simp only [lanIterationEnd, usbIterationEnd, lanStreamSleep,
        usbStreamSleep, hmax]
      ring

/-- Witness for C6's amended statement at `rate = 2`, iteration start `0`,
processing end `1/4`. -/
theorem stream_sleep_timing_witness :
    ((1 : ℚ) / 4 - 0 ≤ 1 / 2) ∧
    (lanStreamSleep 2 ((1 : ℚ) / 4 - 0) = max 0 (1 / 2 - ((1 : ℚ) / 4 - 0)) ∧
     usbStreamSleep 2 ((1 : ℚ) / 4 - 0) = max 0 (1 / 2 - ((1 : ℚ) / 4 - 0)) ∧
     lanIterationEnd 2 0 (1 / 4) - 0 = 1 / 2 ∧
     usbIterationEnd 2 0 (1 / 4) - 0 = 1 / 2 ∧
     rs232StreamSleep 2 = 1 / 2) :=
  ⟨by norm_num, stream_sleep_timing 2 0 (1 / 4) (by norm_num)⟩

/-- C7 counterexample: the spec's round-trip examples do not match the code:
`0.00045 V` lies in the microvolt decade (`0.00045 < 0.001`), so the code
prints `450 μV`, not `450.0 mV`; and `1250.5 / 1000 = 1.2505` rounds
half-to-even down at three decimals, printing `1.250 kW`, not `1.251 kW`. -/
theorem format_measurement_spec_examples_differ :
    format_measurement 0.00045 "V" = "450 μV" ∧
    format_measurement 0.00045 "V" ≠ "450.0 mV" ∧
    format_measurement 1250.5 "W" = "1.250 kW" ∧
    format_measurement 1250.5 "W" ≠ "1.251 kW" := by
  have h1 : (0.00045 : ℚ) = mkRat 45 100000 := by norm_num [Rat.mkRat_eq_div]
  have h2 : (1250.5 : ℚ) = mkRat 12505 10 := by norm_num [Rat.mkRat_eq_div]
  rw [h1, h2]
  exact ⟨by decide, by decide, by decide, by decide⟩

/-- C7 amended: `format_measurement` scales by decade thresholds compared
with `≥`; zero prints as `0.000 V`, the `1000.0` boundary lands in the
kilovolt decade, `0.00045 V` prints as `450 μV` and `1250.5 W` as
`1.250 kW`. -/
theorem format_measurement_boundary_values :
    format_measurement 0 "V" = "0.000 V" ∧
    format_measurement 1000 "V" = "1.000 kV" ∧
    format_measurement 0.00045 "V" = "450 μV" ∧
    format_measurement 1250.5 "W" = "1.250 kW" := by
  have h1 : (0.00045 : ℚ) = mkRat 45 100000 := by norm_num [Rat.mkRat_eq_div]
  have h2 : (1250.5 : ℚ) = mkRat 12505 10 := by norm_num [Rat.mkRat_eq_div]
  rw [h1, h2]
  exact ⟨by decide, by decide, by decide, by decide⟩

/-- C8 counterexample: with the repeated selection `channels = [CH1, CH1]`,
`parameters = [V]` and the fully supplied response `"1,2"`, the request has
two fields but the decoded sample has a single key (the duplicate insert
overwrites in place), so request and sample field counts differ. -/
theorem repeated_entries_collapse_sample :
    getMeasurementDecode ["CH1", "CH1"] ["V"] "1,2" =
      some [("CH1_V", MValue.num (2 : ℚ))] ∧
    (["V"] : List String).length * (["CH1", "CH1"] : List String).length = 2 ∧
    [("CH1_V", MValue.num (2 : ℚ))].length ≠ 2 := by
  refine ⟨?_, by decide, by decide⟩
  have h : (2 : ℚ) = mkRat 2 1 := by norm_num [Rat.mkRat_eq_div]
  rw [h]
  decide

/-- C8 amended: when the generated `{channel}_{parameter}` keys are pairwise
distinct and the response carries at least `|parameters| * |channels|`
fields, the decoded sample has exactly the request's field count, in the
request's order; repeated selections collapse onto one key and truncated
responses produce fewer fields. -/
theorem sample_matches_request_fields (channels parameters : List String)
    (response : String) (hresp : response ≠ "")
    (hnd : ((requestPairs channels parameters).map keyOf).Nodup)
    (hlen : parameters.length * channels.length ≤
      (pySplit response ',').length) :
    ∃ m, getMeasurementDecode channels parameters response = some m ∧
      m.length = parameters.length * channels.length ∧
      m.map Prod.fst = (requestPairs channels parameters).map keyOf := by
  refine ⟨_, decode_full _ _ _ hresp hnd, ?_, ?_⟩
  · rw [List.length_zipWith, requestPairs_length, min_eq_left hlen]
  · rw [zipWith_decodedEntry_keys, take_all_of_length_le]
    rw [List.length_map, requestPairs_length]
    exact hlen

/-- Witness for C8's amended statement at
`channels=[CH1], parameters=[V,A], response="1,2,3"`. -/
theorem sample_matches_request_fields_witness :
    ("1,2,3" : String) ≠ "" ∧
    ((requestPairs ["CH1"] ["V", "A"]).map keyOf).Nodup ∧
    (["V", "A"] : List String).length * (["CH1"] : List String).length ≤
      (pySplit "1,2,3" ',').length ∧
    (∃ m, getMeasurementDecode ["CH1"] ["V", "A"] "1,2,3" = some m ∧
      m.length = (["V", "A"] : List String).length *
        (["CH1"] : List String).length ∧
      m.map Prod.fst = (requestPairs ["CH1"] ["V", "A"]).map keyOf) :=
  ⟨by decide, by decide, by decide,
    sample_matches_request_fields ["CH1"] ["V", "A"] "1,2,3"
      (by decide) (by decide) (by decide)⟩

/-- C9 counterexample: a USB read whose wall clock has exceeded the
configured 5000 ms timeout returns the normal value `None` — the internal
`Exception("Read timeout")` is swallowed by the function's own handler — so
the caller sees no timeout error. -/
theorem usb_read_timeout_returns_none :
    usbReadResponse ⟨true, true⟩ 5000 [(5001, UsbRecv.report [0, 65, 10])] =
      ReadResult.noneVal ∧
    ReadResult.noneVal.isRaised = false := by
  decide

/-- C9 amended: on timeout, the LAN `read_response` raises the dedicated
`Read timeout` error (distinct from a protocol or format failure), but the
USB `read_response` catches its own timeout raise and returns `None`, a
normal value. -/
theorem read_timeout_behavior (rest : List LanRecv) (acc : String)
    (timeoutMs t : Nat) (ev : UsbRecv) (urest : List (Nat × UsbRecv))
    (uacc : String) (h : timeoutMs < t) :
    lanReadLoop (LanRecv.tmo :: rest) acc = ReadResult.raisedTimeout ∧
    ReadResult.raisedTimeout.isRaised = true ∧
    usbReadLoop timeoutMs ((t, ev) :: urest) uacc = ReadResult.noneVal ∧
    ReadResult.noneVal.isRaised = false := by
  refine ⟨rfl, rfl, ?_, rfl⟩
  simp [usbReadLoop, h]

/-- Witness for C9's amended statement at a 5000 ms timeout exceeded at
5001 ms. -/
theorem read_timeout_behavior_witness :
    5000 < 5001 ∧
    (lanReadLoop [LanRecv.tmo] "" = ReadResult.raisedTimeout ∧
     ReadResult.raisedTimeout.isRaised = true ∧
     usbReadLoop 5000 [(5001, UsbRecv.empty)] "" = ReadResult.noneVal ∧
     ReadResult.noneVal.isRaised = false) :=
  ⟨by decide,
    read_timeout_behavior [] "" 5000 5001 UsbRecv.empty [] "" (by decide)⟩

/-- C10 counterexample: the reply `"00"` is neither `None`, `""` nor `"0"`,
yet `check_errors` returns `0` for it (via `int("00") = 0`), so "returns 0
exactly when the reply is None, empty, or '0'" fails. -/
theorem check_errors_zero_like_reply :
    checkErrors (some "00") = Except.ok 0 ∧
    some "00" ≠ (none : Option String) ∧
    "00" ≠ "" ∧ "00" ≠ "0" := by
  refine ⟨rfl, by decide, by decide, by decide⟩

/-- C10 amended: `check_errors` returns `0` through its no-error branch
exactly for a `None`, empty or `"0"` reply; every other reply is passed to
`int(...)`, whose value is returned (and can itself be `0`, e.g. for `"00"`),
while a reply that is not a valid integer literal makes the uncaught
conversion error escape. -/
theorem check_errors_branches (s : String) (h1 : s ≠ "") (h2 : s ≠ "0") :
    checkErrors none = Except.ok 0 ∧
    checkErrors (some "") = Except.ok 0 ∧
    checkErrors (some "0") = Except.ok 0 ∧
    checkErrors (some s) =
      (match pyIntParse s with
        | some n => Except.ok n
        | none => Except.error "invalid literal for int") := by
  refine ⟨rfl, rfl, rfl, ?_⟩
  simp [checkErrors, h1, h2]

/-- Witness for C10's amended statement at the reply `"7"`. -/
theorem check_errors_branches_witness :
    ("7" : String) ≠ "" ∧ ("7" : String) ≠ "0" ∧
    checkErrors (some "7") = Except.ok 7 :=
  ⟨by decide, by decide, by
    have h := (check_errors_branches "7" (by decide) (by decide)).2.2.2
    have h7 : pyIntParse "7" = some 7 := by decide
    rw [h, h7]⟩

end M2000
